import Mathlib

/-!
Verification of the `msv` sequence-diagram renderer.

The Rust source is shallowly embedded: `f64` values are modelled as
rationals (`ℚ`), `u32`/`usize` as `ℕ`, Rust `String` as Lean `String`,
and `Vec<T>` as `List T`.  Transcendental operations (`cos`, `sin`,
`atan2`, `π`) used by the arrowhead geometry are threaded through an
explicit oracle structure `Trig`, since the claims under examination do
not depend on their values.  The diagram AST (`Participant`, `Message`,
`SequenceStatement`, `ArrowType`) comes from the external
`mermaid_parser` crate and is embedded per its use sites and the
documented data model; variants other than `Message` are collapsed into
a single `other` constructor because the renderer ignores them.
-/

namespace MSV

/-! ## Diagram AST (input boundary, from the external parser crate) -/

/-- A participant: identity token `actor` plus optional display alias. -/
structure Participant where
  actor : String
  «alias» : Option String
deriving DecidableEq

/-- The closed set of 8 arrow kinds. -/
inductive ArrowType where
  | SolidOpen
  | SolidClosed
  | Cross
  | Point
  | BiDirectionalSolid
  | DottedOpen
  | DottedClosed
  | BiDirectionalDotted
deriving DecidableEq

/-- A message statement: endpoints, label text and arrow kind. -/
structure Message where
  «from» : String
  «to» : String
  text : String
  arrow_type : ArrowType
deriving DecidableEq

/-- A sequence-diagram statement.  The renderer only inspects `message`
statements (`if let SequenceStatement::Message(msg)`); every other
variant of the upstream AST is collapsed into `other`. -/
inductive SequenceStatement where
  | message (msg : Message)
  | other
deriving DecidableEq

/-- A sequence diagram: ordered participants and ordered statements. -/
structure SequenceDiagram where
  participants : List Participant
  statements : List SequenceStatement
deriving DecidableEq

/-! ## Constants (`src/sequence/constants.rs`) -/

/-- Minimum participant box width. -/
def MIN_PARTICIPANT_WIDTH : ℚ := 80

/-- Minimum participant box height. -/
def MIN_PARTICIPANT_HEIGHT : ℚ := 40

/-- Horizontal padding inside participant box. -/
def PARTICIPANT_PADDING : ℚ := 20

/-- Vertical padding inside participant box. -/
def PARTICIPANT_VERTICAL_PADDING : ℚ := 16

/-- Line height for multi-line text. -/
def LINE_HEIGHT : ℚ := 18

/-- Minimum gap between participant boxes. -/
def MIN_PARTICIPANT_SPACING : ℚ := 50

/-- Margin around message text. -/
def MESSAGE_TEXT_MARGIN : ℚ := 40

/-- Vertical spacing between messages. -/
def MESSAGE_SPACING : ℚ := 50

/-- Height of self-message loop. -/
def SELF_MESSAGE_HEIGHT : ℚ := 40

/-- Width of self-message loop. -/
def SELF_LOOP_WIDTH : ℚ := 40

/-- Text offset for self-message labels. -/
def SELF_LOOP_TEXT_OFFSET : ℚ := 50

/-- Padding around the diagram edges. -/
def PADDING : ℚ := 20

/-! ## Text metrics (`src/layout/text.rs`) -/

/-- Approximate character width for Arial at 14px base size
(`char_width` in `src/layout/text.rs`; the match arms become an ordered
cascade of membership tests). -/
def char_width (c : Char) : ℚ :=
  if c ∈ (['i', 'j', 'l', '!', '|', '.', ',', ':', ';', '\'', '`'] : List Char) then 4
  else if c ∈ (['I', 'f', 't', 'r'] : List Char) then 5
  else if c ∈ ([' ', '-', '(', ')', '[', ']', Char.ofNat 123, Char.ofNat 125] : List Char) then 5
  else if c ∈ (['a', 'b', 'c', 'd', 'e', 'g', 'h', 'k', 'n', 'o', 'p', 'q', 's', 'u', 'v',
      'x', 'y', 'z'] : List Char) then 7
  else if c ∈ (['w', 'm'] : List Char) then 10
  else if c ∈ (['A', 'B', 'C', 'D', 'E', 'F', 'G', 'H', 'K', 'L', 'N', 'O', 'P', 'Q', 'R',
      'S', 'T', 'U', 'V', 'X', 'Y', 'Z'] : List Char) then 9
  else if c ∈ (['M', 'W'] : List Char) then 11
  else if '0' ≤ c ∧ c ≤ '9' then 7
  else if c ∈ (['@', '#', '$', '%', '&', '+', '=', '<', '>', '?', '/', '\\', '"', '*'] : List Char)
    then 8
  else 7

/-- Approximate pixel width of `text`, scaled by `font_size / 14`. -/
def text_width (text : String) (font_size : ℕ) : ℚ :=
  let base_width : ℚ := (text.data.map char_width).sum
  base_width * ((font_size : ℚ) / 14)

/-- Rust `str::replace` for a non-overlapping multi-character pattern,
on character lists (leftmost-first, non-overlapping). -/
def replaceList (pat rep : List Char) : List Char → List Char
  | [] => []
  | x :: xs =>
    if (x :: xs).take pat.length = pat then
      rep ++ replaceList pat rep (xs.drop (pat.length - 1))
    else
      x :: replaceList pat rep xs
termination_by l => l.length
decreasing_by
  · simp only [List.length_drop, List.length_cons]
    omega
  · simp only [List.length_cons]
    omega

/-- Rust `String::replace` with a string pattern. -/
def strReplace (s pat rep : String) : String :=
  ⟨replaceList pat.data rep.data s.data⟩

/-- Splits text by `<br/>`, `<br>` or newline, trims each line and
drops empty lines (`split_by_line_breaks` in `src/layout/text.rs`). -/
def split_by_line_breaks (text : String) : List String :=
  (((strReplace (strReplace text "<br/>" "\n") "<br>" "\n").split (· = '\n')).map
      (fun s => s.trim)).filter (fun s => ¬ s.isEmpty)

/-- Width of a text box: widest line plus padding. -/
def calculate_text_box_width (lines : List String) (font_size : ℕ) (padding : ℚ) : ℚ :=
  let max_line_width := (lines.map (fun line => text_width line font_size)).foldl max 0
  max_line_width + padding

/-- Height of a text box: `lines * line_height + padding`, with an
effective line count of 1 when there are no lines. -/
def calculate_text_box_height (num_lines : ℕ) (line_height : ℚ) (padding : ℚ) : ℚ :=
  let effective_lines := if num_lines = 0 then 1 else num_lines
  (effective_lines : ℚ) * line_height + padding

/-! ## Bounds tracker (`src/layout/bounds.rs`) -/

/-- Running maximum-extent tracker. -/
structure ContentBounds where
  max_x : ℚ
  max_y : ℚ
deriving DecidableEq

namespace ContentBounds

/-- A fresh tracker with both maxima at 0. -/
def new : ContentBounds := ⟨0, 0⟩

/-- Expand bounds to include a point. -/
def include_point (b : ContentBounds) (x y : ℚ) : ContentBounds :=
  { max_x := max b.max_x x, max_y := max b.max_y y }

/-- Expand bounds to include a rectangle. -/
def include_rect (b : ContentBounds) (x y width height : ℚ) : ContentBounds :=
  b.include_point (x + width) (y + height)

/-- Expand bounds to include text of a given width and anchor. -/
def include_text (b : ContentBounds) (x y text_width : ℚ) (anchor : String) : ContentBounds :=
  let right_edge :=
    if anchor = "start" then x + text_width
    else if anchor = "middle" then x + text_width / 2
    else if anchor = "end" then x
    else x + text_width
  b.include_point right_edge y

/-- Final SVG dimensions with padding (`ceil` then cast to `u32`). -/
def svg_size (b : ContentBounds) (padding : ℚ) : ℕ × ℕ :=
  ((⌈b.max_x + padding⌉).toNat, (⌈b.max_y + padding⌉).toNat)

end ContentBounds

/-! ## Sequence layout types (`src/sequence/types.rs`) -/

/-- Layout record for a single participant. -/
structure ParticipantLayout where
  name : String
  lines : List String
  center_x : ℚ
  width : ℚ
deriving DecidableEq

/-- Left edge X position of the participant box. -/
def ParticipantLayout.left_edge (p : ParticipantLayout) : ℚ :=
  p.center_x - p.width / 2

/-- Calculated layout information for rendering. -/
structure Layout where
  bounds : ContentBounds
  participants : List ParticipantLayout
  participant_height : ℚ
  bottom_box_y : ℚ
deriving DecidableEq

/-! ## Sequence layout (`src/sequence/layout.rs`) -/

/-- Participant display lines: split the alias (or the actor, when no
alias is present) by line breaks. -/
def get_participant_lines (participant : Participant) : List String :=
  split_by_line_breaks (participant.alias.getD participant.actor)

/-- Participant box width based on the widest line, floored at
`MIN_PARTICIPANT_WIDTH`. -/
def calculate_participant_width (lines : List String) (font_size : ℕ) : ℚ :=
  max (calculate_text_box_width lines font_size PARTICIPANT_PADDING) MIN_PARTICIPANT_WIDTH

/-- Participant box height based on the number of lines, floored at
`MIN_PARTICIPANT_HEIGHT`. -/
def calculate_participant_height (num_lines : ℕ) : ℚ :=
  max (calculate_text_box_height num_lines LINE_HEIGHT PARTICIPANT_VERTICAL_PADDING)
    MIN_PARTICIPANT_HEIGHT

/-- All participant widths, heights and display lines. -/
def calculate_participant_dimensions (participants : List Participant) (font_size : ℕ) :
    List ℚ × List ℚ × List (List String) :=
  let all_lines := participants.map get_participant_lines
  let widths := all_lines.map (fun lines => calculate_participant_width lines font_size)
  let heights := all_lines.map (fun lines => calculate_participant_height lines.length)
  (widths, heights, all_lines)

/-- Index of the first participant whose `actor` equals `name`
(`iter().position` in the source). -/
def find_participant_index (participants : List Participant) (name : String) : Option ℕ :=
  match participants with
  | [] => none
  | p :: rest =>
    if p.actor == name then some 0
    else (find_participant_index rest name).map (fun i => i + 1)

/-- One iteration of the statement loop inside `calculate_gap_spacings`:
self-messages and unknown references are skipped; otherwise, when the
message label needs more room than the spanned gaps provide, the deficit
is distributed evenly over exactly those gaps. -/
def gapStep (participants : List Participant) (font_size : ℕ)
    (spacings : List ℚ) (statement : SequenceStatement) : List ℚ :=
  match statement with
  | .message msg =>
    if msg.from == msg.to then spacings
    else
      match find_participant_index participants msg.from,
            find_participant_index participants msg.to with
      | some from_idx, some to_idx =>
        let p := if from_idx < to_idx then (from_idx, to_idx) else (to_idx, from_idx)
        let min_idx := p.1
        let max_idx := p.2
        let required_width := text_width msg.text font_size + MESSAGE_TEXT_MARGIN
        let current_span : ℚ := ((spacings.drop min_idx).take (max_idx - min_idx)).sum
        if required_width > current_span then
          let extra := required_width - current_span
          let gaps_count := max_idx - min_idx
          let extra_per_gap := extra / (gaps_count : ℚ)
          spacings.mapIdx (fun i v =>
            if min_idx ≤ i ∧ i < max_idx then v + extra_per_gap else v)
        else spacings
      | _, _ => spacings
  | .other => spacings

/-- Dynamic spacing for each of the `n - 1` inter-participant gaps. -/
def calculate_gap_spacings (participants : List Participant) (participant_widths : List ℚ)
    (statements : List SequenceStatement) (font_size : ℕ) : List ℚ :=
  let num_gaps := participants.length - 1
  if num_gaps = 0 then []
  else
    let spacings := (List.range num_gaps).map (fun i =>
      let left_half := participant_widths.getD i 0 / 2
      let right_half := participant_widths.getD (i + 1) 0 / 2
      left_half + MIN_PARTICIPANT_SPACING + right_half)
    statements.foldl (gapStep participants font_size) spacings

/-- The indexed loop of `calculate_participant_layouts`: emit one layout
per participant, advancing the running center by the gap when one
remains. -/
def layoutsAux (ws : List ℚ) (ls : List (List String)) (gs : List ℚ) :
    List Participant → ℕ → ℚ → List ParticipantLayout
  | [], _, _ => []
  | p :: rest, i, cx =>
    { name := p.actor, lines := ls.getD i [p.actor], center_x := cx,
      width := ws.getD i MIN_PARTICIPANT_WIDTH } ::
      layoutsAux ws ls gs rest (i + 1) (if i < gs.length then cx + gs.getD i 0 else cx)

/-- Participant layouts from gap spacings, widths and lines. -/
def calculate_participant_layouts (participants : List Participant)
    (participant_widths : List ℚ) (participant_lines : List (List String))
    (gap_spacings : List ℚ) : List ParticipantLayout :=
  layoutsAux participant_widths participant_lines gap_spacings participants 0
    (PADDING + participant_widths.headD MIN_PARTICIPANT_WIDTH / 2)

/-- Center X position of the participant layout named `name`. -/
def find_participant_center (participants : List ParticipantLayout) (name : String) :
    Option ℚ :=
  (participants.find? (fun p => p.name == name)).map (fun p => p.center_x)

/-- Width of the widest display line of a participant layout (used for
the centered-label bounds in `calculate_layout`). -/
def max_line_width (p : ParticipantLayout) (font_size : ℕ) : ℚ :=
  (p.lines.map (fun line => text_width line font_size)).foldl max 0

/-- Bounds contribution of one participant's top box and label. -/
def topBoundsStep (participant_height : ℚ) (font_size : ℕ)
    (b : ContentBounds) (p : ParticipantLayout) : ContentBounds :=
  (b.include_rect p.left_edge PADDING p.width participant_height).include_text
    p.center_x (PADDING + participant_height) (max_line_width p font_size) "middle"

/-- Bounds contribution of one participant's bottom box and label. -/
def bottomBoundsStep (bottom_box_y participant_height : ℚ) (font_size : ℕ)
    (b : ContentBounds) (p : ParticipantLayout) : ContentBounds :=
  (b.include_rect p.left_edge bottom_box_y p.width participant_height).include_text
    p.center_x (bottom_box_y + participant_height) (max_line_width p font_size) "middle"

/-- One iteration of the message loop inside `calculate_layout`: track
bounds and advance the vertical cursor; messages with an unresolved
endpoint change nothing. -/
def layoutMsgStep (participants : List ParticipantLayout) (font_size : ℕ)
    (state : ContentBounds × ℚ) (statement : SequenceStatement) : ContentBounds × ℚ :=
  match statement with
  | .message msg =>
    let bounds := state.1
    let message_y := state.2
    match find_participant_center participants msg.from,
          find_participant_center participants msg.to with
    | some fx, some tx =>
      if msg.from == msg.to then
        let loop_right := fx + SELF_LOOP_WIDTH
        let b1 := bounds.include_point loop_right (message_y + SELF_MESSAGE_HEIGHT)
        let msg_width := text_width msg.text font_size
        let b2 := b1.include_text (fx + SELF_LOOP_TEXT_OFFSET)
          (message_y + SELF_MESSAGE_HEIGHT) msg_width "start"
        (b2, message_y + (MESSAGE_SPACING + SELF_MESSAGE_HEIGHT))
      else
        let b1 := bounds.include_point (max fx tx) message_y
        let text_x := (fx + tx) / 2
        let msg_width := text_width msg.text font_size
        let b2 := b1.include_text text_x message_y msg_width "middle"
        (b2, message_y + MESSAGE_SPACING)
    | _, _ => state
  | .other => state

/-- First-pass layout computation (`calculate_layout` in
`src/sequence/layout.rs`). -/
def calculate_layout (diagram : SequenceDiagram) (font_size : ℕ) : Layout :=
  let bounds := ContentBounds.new
  let dims := calculate_participant_dimensions diagram.participants font_size
  let participant_widths := dims.1
  let participant_heights := dims.2.1
  let participant_lines := dims.2.2
  let participant_width := participant_widths.foldl max MIN_PARTICIPANT_WIDTH
  let participant_height := participant_heights.foldl max MIN_PARTICIPANT_HEIGHT
  let uniform_widths := List.replicate diagram.participants.length participant_width
  let gap_spacings :=
    calculate_gap_spacings diagram.participants uniform_widths diagram.statements font_size
  let participants := calculate_participant_layouts diagram.participants uniform_widths
    participant_lines gap_spacings
  let bounds := participants.foldl (topBoundsStep participant_height font_size) bounds
  let start_y := PADDING + participant_height + MESSAGE_SPACING
  let res := diagram.statements.foldl (layoutMsgStep participants font_size) (bounds, start_y)
  let bottom_box_y := res.2
  let bounds :=
    participants.foldl (bottomBoundsStep bottom_box_y participant_height font_size) res.1
  { bounds := bounds, participants := participants,
    participant_height := participant_height, bottom_box_y := bottom_box_y }

/-! ## Options and themes (`src/options.rs`) -/

/-- Rendering theme. -/
inductive Theme where
  | Light
  | Dark
deriving DecidableEq

/-- Colors used for rendering a specific theme. -/
structure ThemeColors where
  background : String
  text : String
  line : String
  participant_bg : String
  participant_border : String
deriving DecidableEq

/-- Light theme palette. -/
def ThemeColors.light : ThemeColors :=
  { background := "#ffffff", text := "#333333", line := "#333333",
    participant_bg := "#ecf0f1", participant_border := "#333333" }

/-- Dark theme palette. -/
def ThemeColors.dark : ThemeColors :=
  { background := "#1a1a2e", text := "#eaeaea", line := "#eaeaea",
    participant_bg := "#16213e", participant_border := "#eaeaea" }

/-- Configuration options for rendering diagrams. -/
structure RenderOptions where
  theme : Theme
  width : Option ℕ
  height : Option ℕ
  padding : ℕ
  font_family : String
  font_size : ℕ
  transparent_bg : Bool
deriving DecidableEq

/-- Default render options. -/
def RenderOptions.default : RenderOptions :=
  { theme := Theme.Light, width := none, height := none, padding := 20,
    font_family := "Arial, sans-serif", font_size := 14, transparent_bg := false }

/-- Color palette for the current theme. -/
def RenderOptions.colors (o : RenderOptions) : ThemeColors :=
  match o.theme with
  | Theme.Light => ThemeColors.light
  | Theme.Dark => ThemeColors.dark

/-! ## SVG shape primitives (`src/svg/shapes.rs`) -/

/-- Line style for arrows. -/
inductive LineStyle where
  | Solid
  | Dotted
deriving DecidableEq

/-- End/head style for arrows. -/
inductive EndStyle where
  | None
  | Closed
  | Open
  | Cross
deriving DecidableEq

/-- Oracle for the `f64` transcendental operations used by the
arrowhead geometry (`cos`, `sin`, `atan2`, `π` from Rust's `std`).
The claims under examination hold for every oracle. -/
structure Trig where
  cos : ℚ → ℚ
  sin : ℚ → ℚ
  atan2 : ℚ → ℚ → ℚ
  pi : ℚ

/-- Decimal rendering of a number, standing in for Rust's `{}`
`Display` formatting of `f64` inside `format!`. -/
def fmtNum (q : ℚ) : String := toString q

/-- Rust `str::replace` with a single-character pattern: every
occurrence of `c` is replaced by `rep`. -/
def charReplace (l : List Char) (c : Char) (rep : String) : List Char :=
  l.flatMap (fun x => if x = c then rep.data else [x])

/-- Escape the five XML special characters (`escape_xml` in
`src/svg/shapes.rs`): sequential whole-string replacement of `&`, `<`,
`>`, `"`, `'` by their named entities, in that order. -/
def escape_xml (s : String) : String :=
  ⟨charReplace (charReplace (charReplace (charReplace
    (charReplace s.data '&' "&amp;") '<' "&lt;") '>' "&gt;") '"' "&quot;") '\'' "&apos;"⟩

/-- A line segment with the given style. -/
def create_line (x1 y1 x2 y2 : ℚ) (stroke : String) (style : LineStyle) : String :=
  let dash := match style with
    | LineStyle.Dotted => " stroke-dasharray=\"5,5\""
    | LineStyle.Solid => ""
  "<line x1=\"" ++ fmtNum x1 ++ "\" y1=\"" ++ fmtNum y1 ++ "\" x2=\"" ++ fmtNum x2 ++
    "\" y2=\"" ++ fmtNum y2 ++ "\" stroke=\"" ++ stroke ++ "\" stroke-width=\"1\"" ++
    dash ++ "/>"

/-- Filled triangle arrowhead. -/
def create_end_closed (t : Trig) (x y angle : ℚ) (stroke : String) : String :=
  let arrow_length : ℚ := 10
  let arrow_angle : ℚ := 1 / 2
  let ax1 := x - arrow_length * t.cos (angle - arrow_angle)
  let ay1 := y - arrow_length * t.sin (angle - arrow_angle)
  let ax2 := x - arrow_length * t.cos (angle + arrow_angle)
  let ay2 := y - arrow_length * t.sin (angle + arrow_angle)
  "<polygon points=\"" ++ fmtNum x ++ "," ++ fmtNum y ++ " " ++ fmtNum ax1 ++ "," ++
    fmtNum ay1 ++ " " ++ fmtNum ax2 ++ "," ++ fmtNum ay2 ++ "\" fill=\"" ++ stroke ++ "\"/>"

/-- V-shape open arrowhead. -/
def create_end_open (t : Trig) (x y angle : ℚ) (stroke : String) : String :=
  let arrow_length : ℚ := 10
  let arrow_angle : ℚ := 1 / 2
  let ax1 := x - arrow_length * t.cos (angle - arrow_angle)
  let ay1 := y - arrow_length * t.sin (angle - arrow_angle)
  let ax2 := x - arrow_length * t.cos (angle + arrow_angle)
  let ay2 := y - arrow_length * t.sin (angle + arrow_angle)
  "<line x1=\"" ++ fmtNum ax1 ++ "\" y1=\"" ++ fmtNum ay1 ++ "\" x2=\"" ++ fmtNum x ++
    "\" y2=\"" ++ fmtNum y ++ "\" stroke=\"" ++ stroke ++ "\" stroke-width=\"1\"/>\n" ++
    "<line x1=\"" ++ fmtNum ax2 ++ "\" y1=\"" ++ fmtNum ay2 ++ "\" x2=\"" ++ fmtNum x ++
    "\" y2=\"" ++ fmtNum y ++ "\" stroke=\"" ++ stroke ++ "\" stroke-width=\"1\"/>"

/-- X-shape cross marker. -/
def create_end_cross (x y : ℚ) (stroke : String) : String :=
  let cross_size : ℚ := 6
  "<line x1=\"" ++ fmtNum (x - cross_size) ++ "\" y1=\"" ++ fmtNum (y - cross_size) ++
    "\" x2=\"" ++ fmtNum (x + cross_size) ++ "\" y2=\"" ++ fmtNum (y + cross_size) ++
    "\" stroke=\"" ++ stroke ++ "\" stroke-width=\"1\"/>\n" ++
    "<line x1=\"" ++ fmtNum (x - cross_size) ++ "\" y1=\"" ++ fmtNum (y + cross_size) ++
    "\" x2=\"" ++ fmtNum (x + cross_size) ++ "\" y2=\"" ++ fmtNum (y - cross_size) ++
    "\" stroke=\"" ++ stroke ++ "\" stroke-width=\"1\"/>"

/-- Arrow end marker at a point with a direction. -/
def create_end (t : Trig) (x y angle : ℚ) (stroke : String) (style : EndStyle) : String :=
  match style with
  | EndStyle.None => ""
  | EndStyle.Closed => create_end_closed t x y angle stroke
  | EndStyle.Open => create_end_open t x y angle stroke
  | EndStyle.Cross => create_end_cross x y stroke

/-- Complete arrow: line plus optional start/end markers, non-empty
fragments newline-joined. -/
def create_arrow (t : Trig) (x1 y1 x2 y2 : ℚ) (stroke : String) (line_style : LineStyle)
    (start_end end_end : EndStyle) : String :=
  let line := create_line x1 y1 x2 y2 stroke line_style
  let angle := t.atan2 (y2 - y1) (x2 - x1)
  let reverse_angle := angle + t.pi
  let end_marker := create_end t x2 y2 angle stroke end_end
  let start_marker := create_end t x1 y1 reverse_angle stroke start_end
  String.intercalate "\n" (([line, end_marker, start_marker]).filter (fun s => ¬ s.isEmpty))

/-- Self-referencing loop arrow for self-messages. -/
def create_self_loop (x y : ℚ) (stroke : String) (line_style : LineStyle) : String :=
  let dash := match line_style with
    | LineStyle.Dotted => " stroke-dasharray=\"5,5\""
    | LineStyle.Solid => ""
  let loop_width : ℚ := 40
  let loop_height : ℚ := 30
  "<path d=\"M " ++ fmtNum x ++ " " ++ fmtNum y ++ " Q " ++ fmtNum (x + loop_width) ++ " " ++
    fmtNum y ++ " " ++ fmtNum (x + loop_width) ++ " " ++ fmtNum (y + loop_height / 2) ++
    " Q " ++ fmtNum (x + loop_width) ++ " " ++ fmtNum (y + loop_height) ++ " " ++
    fmtNum x ++ " " ++ fmtNum (y + loop_height) ++ "\" fill=\"none\" stroke=\"" ++ stroke ++
    "\" stroke-width=\"1\"" ++ dash ++ "/>\n" ++
    "<polygon points=\"" ++ fmtNum x ++ "," ++ fmtNum (y + loop_height) ++ " " ++
    fmtNum (x + 8) ++ "," ++ fmtNum (y + loop_height - 5) ++ " " ++ fmtNum (x + 8) ++ "," ++
    fmtNum (y + loop_height + 5) ++ "\" fill=\"" ++ stroke ++ "\"/>"

/-- Filled, bordered, rounded rectangle. -/
def draw_rect (x y width height : ℚ) (fill stroke : String) : String :=
  "<rect x=\"" ++ fmtNum x ++ "\" y=\"" ++ fmtNum y ++ "\" width=\"" ++ fmtNum width ++
    "\" height=\"" ++ fmtNum height ++ "\" fill=\"" ++ fill ++ "\" stroke=\"" ++ stroke ++
    "\" stroke-width=\"1\" rx=\"4\"/>"

/-- Single text element; the content is XML-escaped. -/
def draw_text (x y : ℚ) (text : String) (fill : String) (font_size : ℕ)
    (anchor : String) : String :=
  "<text x=\"" ++ fmtNum x ++ "\" y=\"" ++ fmtNum y ++ "\" fill=\"" ++ fill ++
    "\" font-size=\"" ++ toString font_size ++
    "\" font-family=\"Arial, sans-serif\" text-anchor=\"" ++ anchor ++ "\">" ++
    escape_xml text ++ "</text>"

/-- Multi-line text block, vertically centered around `center_y` with a
baseline adjustment of `0.35 * font_size`; each line is XML-escaped. -/
def draw_multiline_text (x center_y : ℚ) (lines : List String) (fill : String)
    (font_size : ℕ) (line_height : ℚ) (anchor : String) : String :=
  if lines.isEmpty then ""
  else
    let baseline_adjustment := (font_size : ℚ) * (35 / 100)
    let total_height := ((lines.length - 1 : ℕ) : ℚ) * line_height
    let start_y := center_y - total_height / 2 + baseline_adjustment
    String.intercalate "\n" (lines.enum.map (fun pr =>
      let y := start_y + (pr.1 : ℚ) * line_height
      "<text x=\"" ++ fmtNum x ++ "\" y=\"" ++ fmtNum y ++ "\" fill=\"" ++ fill ++
        "\" font-size=\"" ++ toString font_size ++
        "\" font-family=\"Arial, sans-serif\" text-anchor=\"" ++ anchor ++ "\">" ++
        escape_xml pr.2 ++ "</text>"))

/-! ## SVG document builder (`src/svg/builder.rs`) -/

/-- Accumulator for SVG elements plus document-level attributes. -/
structure SvgBuilder where
  width : ℕ
  height : ℕ
  elements : List String
  colors : ThemeColors
  transparent : Bool
deriving DecidableEq

/-- A fresh builder with no elements. -/
def SvgBuilder.new (width height : ℕ) (colors : ThemeColors) (transparent : Bool) :
    SvgBuilder :=
  { width := width, height := height, elements := [], colors := colors,
    transparent := transparent }

/-- Append an element; paint order is insertion order. -/
def SvgBuilder.add_element (b : SvgBuilder) (element : String) : SvgBuilder :=
  { b with elements := b.elements ++ [element] }

/-- Serialize the document (the `Display` impl for `SvgBuilder`). -/
def SvgBuilder.to_string (b : SvgBuilder) : String :=
  let elements_str := String.intercalate "\n  " b.elements
  let background :=
    if b.transparent then ""
    else "<rect width=\"100%\" height=\"100%\" fill=\"" ++ b.colors.background ++ "\"/>"
  if background.isEmpty then
    "<svg xmlns=\"http://www.w3.org/2000/svg\" width=\"" ++ toString b.width ++
      "\" height=\"" ++ toString b.height ++ "\" viewBox=\"0 0 " ++ toString b.width ++
      " " ++ toString b.height ++ "\">\n  " ++ elements_str ++ "\n</svg>"
  else
    "<svg xmlns=\"http://www.w3.org/2000/svg\" width=\"" ++ toString b.width ++
      "\" height=\"" ++ toString b.height ++ "\" viewBox=\"0 0 " ++ toString b.width ++
      " " ++ toString b.height ++ "\">\n  " ++ background ++ "\n  " ++ elements_str ++
      "\n</svg>"

/-! ## Sequence rendering (`src/sequence/render.rs`, `src/sequence/mod.rs`) -/

/-- Arrow-kind to (line style, start marker, end marker) table
(`arrow_type_to_styles` in `src/sequence/render.rs`). -/
def arrow_type_to_styles (arrow_type : ArrowType) : LineStyle × EndStyle × EndStyle :=
  match arrow_type with
  | ArrowType.SolidOpen => (LineStyle.Solid, EndStyle.None, EndStyle.None)
  | ArrowType.SolidClosed => (LineStyle.Solid, EndStyle.None, EndStyle.Closed)
  | ArrowType.Cross => (LineStyle.Solid, EndStyle.None, EndStyle.Cross)
  | ArrowType.Point => (LineStyle.Solid, EndStyle.None, EndStyle.Open)
  | ArrowType.BiDirectionalSolid => (LineStyle.Solid, EndStyle.Closed, EndStyle.Closed)
  | ArrowType.DottedOpen => (LineStyle.Dotted, EndStyle.None, EndStyle.None)
  | ArrowType.DottedClosed => (LineStyle.Dotted, EndStyle.None, EndStyle.Closed)
  | ArrowType.BiDirectionalDotted => (LineStyle.Dotted, EndStyle.Closed, EndStyle.Closed)

/-- Whether an arrow type uses the dotted line style. -/
def is_dotted_arrow (arrow_type : ArrowType) : Bool :=
  match arrow_type with
  | ArrowType.DottedOpen | ArrowType.DottedClosed | ArrowType.BiDirectionalDotted => true
  | _ => false

/-- Elements emitted for one participant by `draw_participants`: top box,
top label, lifeline, bottom box, bottom label. -/
def drawParticipantStep (options : RenderOptions) (participant_height bottom_box_y : ℚ)
    (builder : SvgBuilder) (p : ParticipantLayout) : SvgBuilder :=
  let colors := options.colors
  let b1 := builder.add_element (draw_rect p.left_edge PADDING p.width participant_height
    colors.participant_bg colors.participant_border)
  let center_y := PADDING + participant_height / 2
  let b2 :=
    if p.lines.length = 1 then
      b1.add_element (draw_text p.center_x (center_y + 5) (p.lines.getD 0 "")
        colors.text options.font_size "middle")
    else
      b1.add_element (draw_multiline_text p.center_x center_y p.lines colors.text
        options.font_size LINE_HEIGHT "middle")
  let lifeline_start := PADDING + participant_height
  let lifeline_end := bottom_box_y
  let b3 := b2.add_element (create_line p.center_x lifeline_start p.center_x lifeline_end
    colors.line LineStyle.Solid)
  let b4 := b3.add_element (draw_rect p.left_edge bottom_box_y p.width participant_height
    colors.participant_bg colors.participant_border)
  let bottom_center_y := bottom_box_y + participant_height / 2
  if p.lines.length = 1 then
    b4.add_element (draw_text p.center_x (bottom_center_y + 5) (p.lines.getD 0 "")
      colors.text options.font_size "middle")
  else
    b4.add_element (draw_multiline_text p.center_x bottom_center_y p.lines colors.text
      options.font_size LINE_HEIGHT "middle")

/-- All participants: boxes at top and bottom, labels and lifelines. -/
def draw_participants (builder : SvgBuilder) (participants : List ParticipantLayout)
    (options : RenderOptions) (participant_height bottom_box_y : ℚ) : SvgBuilder :=
  participants.foldl (drawParticipantStep options participant_height bottom_box_y) builder

/-- One iteration of the message loop inside `draw_messages`: emit the
arrow or self-loop (plus label) and advance the vertical cursor;
messages with an unresolved endpoint emit nothing and do not advance. -/
def drawMsgStep (t : Trig) (options : RenderOptions)
    (participants : List ParticipantLayout) (bottom_box_y : ℚ)
    (state : SvgBuilder × ℚ) (statement : SequenceStatement) : SvgBuilder × ℚ :=
  let colors := options.colors
  match statement with
  | .message msg =>
    let builder := state.1
    let message_y := state.2
    match find_participant_center participants msg.from,
          find_participant_center participants msg.to with
    | some fx, some tx =>
      if msg.from == msg.to then
        let b' :=
          if message_y + SELF_MESSAGE_HEIGHT ≤ bottom_box_y then
            let line_style :=
              if is_dotted_arrow msg.arrow_type then LineStyle.Dotted else LineStyle.Solid
            ((builder.add_element (create_self_loop fx message_y colors.line
              line_style)).add_element (draw_text (fx + SELF_LOOP_TEXT_OFFSET)
                (message_y + SELF_MESSAGE_HEIGHT / 2) msg.text colors.text
                options.font_size "start"))
          else builder
        (b', message_y + (MESSAGE_SPACING + SELF_MESSAGE_HEIGHT))
      else
        let sty := arrow_type_to_styles msg.arrow_type
        let b1 := builder.add_element (create_arrow t fx message_y tx message_y colors.line
          sty.1 sty.2.1 sty.2.2)
        let text_x := (fx + tx) / 2
        let b2 := b1.add_element (draw_text text_x (message_y - 10) msg.text colors.text
          options.font_size "middle")
        (b2, message_y + MESSAGE_SPACING)
    | _, _ => state
  | .other => state

/-- All messages between participants (`draw_messages`); returns the
builder after the statement loop. -/
def draw_messages (t : Trig) (builder : SvgBuilder) (diagram : SequenceDiagram)
    (participants : List ParticipantLayout) (options : RenderOptions)
    (participant_height bottom_box_y : ℚ) : SvgBuilder :=
  (diagram.statements.foldl (drawMsgStep t options participants bottom_box_y)
    (builder, PADDING + participant_height + MESSAGE_SPACING)).1

/-- Errors that can occur during rendering (`src/error.rs`). -/
inductive RenderError where
  | ParseError (msg : String)
  | UnsupportedDiagram (msg : String)
  | SvgError (msg : String)
  | InvalidOptions (msg : String)
deriving DecidableEq

/-- Render a sequence diagram to SVG (`render` in
`src/sequence/mod.rs`): dry layout pass, then participant and message
drawing into the builder. -/
def render (t : Trig) (diagram : SequenceDiagram) (options : RenderOptions) :
    Except RenderError String :=
  let colors := options.colors
  let layout := calculate_layout diagram options.font_size
  let sz := layout.bounds.svg_size PADDING
  let builder := SvgBuilder.new sz.1 sz.2 colors options.transparent_bg
  let builder := draw_participants builder layout.participants options
    layout.participant_height layout.bottom_box_y
  let builder := draw_messages t builder diagram layout.participants options
    layout.participant_height layout.bottom_box_y
  Except.ok builder.to_string

/-! ## Spec-side definitions

These transcribe formulas stated by the specification (not the source),
for comparison against the embedded code. -/

/-- Spec formula for the single uniform box width:
`max(MIN_PARTICIPANT_WIDTH, maximum over all participants of that
participant's widest display line width plus PARTICIPANT_PADDING)`. -/
def specUniformWidth (d : SequenceDiagram) (font_size : ℕ) : ℚ :=
  max MIN_PARTICIPANT_WIDTH
    ((d.participants.map (fun p =>
      ((get_participant_lines p).map (fun line => text_width line font_size)).foldl max 0
        + PARTICIPANT_PADDING)).foldl max 0)

/-- Spec formula for the single uniform box height:
`max(MIN_PARTICIPANT_HEIGHT, maximum over all participants of
lineCount * LINE_HEIGHT + PARTICIPANT_VERTICAL_PADDING)`. -/
def specUniformHeight (d : SequenceDiagram) : ℚ :=
  max MIN_PARTICIPANT_HEIGHT
    ((d.participants.map (fun p =>
      ((get_participant_lines p).length : ℚ) * LINE_HEIGHT
        + PARTICIPANT_VERTICAL_PADDING)).foldl max 0)

/-- The entity each character maps to under XML escaping, per the spec:
each of the five special characters becomes its named entity, every
other character passes through unmodified. -/
def xmlEntity (c : Char) : String :=
  if c = '&' then "&amp;"
  else if c = '<' then "&lt;"
  else if c = '>' then "&gt;"
  else if c = '"' then "&quot;"
  else if c = '\'' then "&apos;"
  else String.singleton c

/-! ## Helper lemmas -/

lemma find_participant_index_some {ps : List Participant} {name : String} {i : ℕ}
    (h : find_participant_index ps name = some i) :
    ∃ p, ps[i]? = some p ∧ p.actor = name := by
  induction ps generalizing i with
  | nil => simp [find_participant_index] at h
  | cons p rest ih =>
    rw [find_participant_index] at h
    by_cases hpa : p.actor == name
    · rw [if_pos hpa] at h
      obtain rfl : 0 = i := Option.some.inj h
      exact ⟨p, by simp, by simpa using hpa⟩
    · rw [if_neg hpa] at h
      obtain ⟨j, hj, rfl⟩ := Option.map_eq_some'.mp h
      obtain ⟨q, hq, hqa⟩ := ih hj
      exact ⟨q, by simpa using hq, hqa⟩

lemma find_participant_index_none {ps : List Participant} {name : String}
    (h : ∀ p ∈ ps, p.actor ≠ name) : find_participant_index ps name = none := by
  induction ps with
  | nil => rfl
  | cons p rest ih =>
    rw [find_participant_index]
    rw [if_neg (by simpa using h p (List.mem_cons_self p rest)), ih]
    · rfl
    · exact fun q hq => h q (List.mem_cons_of_mem p hq)

lemma find_participant_index_ne {ps : List Participant} {f t : String} {fi ti : ℕ}
    (hf : find_participant_index ps f = some fi)
    (ht : find_participant_index ps t = some ti) (hne : f ≠ t) : fi ≠ ti := by
  intro heq
  subst heq
  obtain ⟨p, hp, hpf⟩ := find_participant_index_some hf
  obtain ⟨q, hq, hqt⟩ := find_participant_index_some ht
  rw [hp] at hq
  obtain rfl : p = q := Option.some.inj hq
  exact hne (hpf ▸ hqt ▸ rfl)

lemma gapStep_self {ps : List Participant} {fs : ℕ} {sp : List ℚ} {m : Message}
    (h : m.from = m.to) : gapStep ps fs sp (.message m) = sp := by
  simp [gapStep, h]

lemma getD_mapIdx (l : List ℚ) (f : ℕ → ℚ → ℚ) (i : ℕ) (h : i < l.length) :
    (l.mapIdx f).getD i 0 = f i (l.getD i 0) := by
  induction l generalizing f i with
  | nil => simp at h
  | cons x xs ih =>
    rw [List.mapIdx_cons]
    cases i with
    | zero => simp
    | succ j =>
      simp only [List.getD_cons_succ]
      exact ih _ j (by simpa using h)

lemma getD_range_map (f : ℕ → ℚ) (n i : ℕ) (h : i < n) :
    ((List.range n).map f).getD i 0 = f i := by
  have hlen : i < ((List.range n).map f).length := by simpa using h
  rw [List.getD_eq_getElem _ _ hlen]
  simp

lemma foldl_invariant {α β : Type} (P : α → Prop) (f : α → β → α) (l : List β) (init : α)
    (h0 : P init) (hstep : ∀ acc x, P acc → P (f acc x)) : P (l.foldl f init) := by
  induction l generalizing init with
  | nil => exact h0
  | cons x xs ih => exact ih _ (hstep _ _ h0)

lemma gapStep_mono (ps : List Participant) (fs : ℕ) (sp : List ℚ) (st : SequenceStatement)
    (i : ℕ) : sp.getD i 0 ≤ (gapStep ps fs sp st).getD i 0 := by
  rcases st with msg | _
  · rw [gapStep]
    by_cases hself : (msg.from == msg.to) = true
    · simp [hself]
    · simp only [Bool.not_eq_true] at hself
      simp only [hself, Bool.false_eq_true, if_false]
      cases hfi : find_participant_index ps msg.from with
      | none => simp
      | some fi =>
        cases hti : find_participant_index ps msg.to with
        | none => simp
        | some ti =>
          simp only []
          set mi := (if fi < ti then (fi, ti) else (ti, fi)).1 with hmi
          set ma := (if fi < ti then (fi, ti) else (ti, fi)).2 with hma
          set required := text_width msg.text fs + MESSAGE_TEXT_MARGIN with hreq
          set span := ((sp.drop mi).take (ma - mi)).sum with hspan
          by_cases hgt : required > span
          · rw [if_pos hgt]
            by_cases hi : i < sp.length
            · rw [getD_mapIdx _ _ _ hi]
              by_cases hin : mi ≤ i ∧ i < ma
              · rw [if_pos hin]
                have hd : 0 ≤ (required - span) / ((ma - mi : ℕ) : ℚ) :=
                  div_nonneg (by linarith) (by positivity)
                linarith
              · rw [if_neg hin]
            · rw [List.getD_eq_default _ _ (by omega),
                List.getD_eq_default _ _ (by simpa using (by omega : sp.length ≤ i))]
          · rw [if_neg hgt]
  · simp [gapStep]

lemma gapStep_shape (ps : List Participant) (fs : ℕ) (sp : List ℚ)
    (st : SequenceStatement) :
    gapStep ps fs sp st = sp ∨
      ∃ lo hi d, lo < hi ∧ 0 < d ∧
        gapStep ps fs sp st
          = sp.mapIdx (fun i v => if lo ≤ i ∧ i < hi then v + d else v) := by
  rcases st with msg | _
  · rw [gapStep]
    by_cases hself : (msg.from == msg.to) = true
    · simp [hself]
    · simp only [Bool.not_eq_true] at hself
      have hne : msg.from ≠ msg.to := by
        intro h
        rw [h] at hself
        simp at hself
      simp only [hself, Bool.false_eq_true, if_false]
      cases hfi : find_participant_index ps msg.from with
      | none => simp
      | some fi =>
        cases hti : find_participant_index ps msg.to with
        | none => simp
        | some ti =>
          have hfit : fi ≠ ti := find_participant_index_ne hfi hti hne
          simp only []
          set mi := (if fi < ti then (fi, ti) else (ti, fi)).1 with hmi
          set ma := (if fi < ti then (fi, ti) else (ti, fi)).2 with hma
          have hlt : mi < ma := by
            rw [hmi, hma]
            by_cases h : fi < ti
            · simp [h]
            · simp only [h, if_false]
              omega
          set required := text_width msg.text fs + MESSAGE_TEXT_MARGIN with hreq
          set span := ((sp.drop mi).take (ma - mi)).sum with hspan
          by_cases hgt : required > span
          · right
            refine ⟨mi, ma, (required - span) / ((ma - mi : ℕ) : ℚ), hlt, ?_, ?_⟩
            · apply div_pos (by linarith)
              have : 0 < ma - mi := by omega
              exact_mod_cast this
            · rw [if_pos hgt]
          · left
            rw [if_neg hgt]
  · simp [gapStep]

lemma foldl_max_ge (l : List ℚ) (a : ℚ) : a ≤ l.foldl max a := by
  induction l generalizing a with
  | nil => exact le_refl a
  | cons x xs ih => exact le_trans (le_max_left a x) (ih (max a x))

lemma foldl_max_map_max (l : List ℚ) (a : ℚ) :
    ∀ acc, a ≤ acc → (l.map (fun x => max x a)).foldl max acc = l.foldl max acc := by
  induction l with
  | nil => intro acc _; rfl
  | cons x xs ih =>
    intro acc hacc
    simp only [List.map_cons, List.foldl_cons]
    have h1 : max acc (max x a) = max acc x := by
      rw [max_comm x a, ← max_assoc]
      exact congrArg (fun z => max z x) (max_eq_left hacc)
    rw [h1]
    exact ih (max acc x) (le_trans hacc (le_max_left acc x))

lemma foldl_max_split (l : List ℚ) :
    ∀ a b, b ≤ a → l.foldl max a = max a (l.foldl max b) := by
  induction l with
  | nil => intro a b h; exact (max_eq_left h).symm
  | cons x xs ih =>
    intro a b h
    simp only [List.foldl_cons]
    rw [ih (max a x) (max b x) (max_le_max h (le_refl x))]
    have hF : x ≤ xs.foldl max (max b x) :=
      le_trans (le_max_right b x) (foldl_max_ge xs (max b x))
    rw [max_assoc, max_eq_right hF]

lemma height_elem_eq (n : ℕ) :
    calculate_participant_height n
      = max ((n : ℚ) * LINE_HEIGHT + PARTICIPANT_VERTICAL_PADDING) MIN_PARTICIPANT_HEIGHT := by
  cases n with
  | zero =>
    show max (calculate_text_box_height 0 LINE_HEIGHT PARTICIPANT_VERTICAL_PADDING)
      MIN_PARTICIPANT_HEIGHT = _
    rw [calculate_text_box_height]
    norm_num [LINE_HEIGHT, PARTICIPANT_VERTICAL_PADDING, MIN_PARTICIPANT_HEIGHT]
  | succ k =>
    show max (calculate_text_box_height (k + 1) LINE_HEIGHT PARTICIPANT_VERTICAL_PADDING)
      MIN_PARTICIPANT_HEIGHT = _
    rw [calculate_text_box_height]
    simp

lemma getD_zero_mem (l : List ParticipantLayout) (h : ¬ l = []) :
    l.getD 0 ⟨"", [], 0, 0⟩ ∈ l := by
  cases l with
  | nil => exact absurd rfl h
  | cons x xs => exact List.mem_cons_self x xs

lemma layoutsAux_width (n : ℕ) (W : ℚ) (ls : List (List String)) (gs : List ℚ) :
    ∀ (qs : List Participant) (i : ℕ) (cx : ℚ), i + qs.length ≤ n →
      ∀ l ∈ layoutsAux (List.replicate n W) ls gs qs i cx, l.width = W := by
  intro qs
  induction qs with
  | nil => intro i cx _ l hl; simp [layoutsAux] at hl
  | cons q rest ih =>
    intro i cx hn l hl
    rw [layoutsAux] at hl
    rcases List.mem_cons.mp hl with h | h
    · subst h
      show (List.replicate n W).getD i MIN_PARTICIPANT_WIDTH = W
      have hi : i < n := by simp at hn; omega
      rw [List.getD_eq_getElem _ _ (by simpa using hi)]
      simp
    · exact ih (i + 1) _ (by simp at hn ⊢; omega) l h

lemma charReplace_append (a b : List Char) (c : Char) (r : String) :
    charReplace (a ++ b) c r = charReplace a c r ++ charReplace b c r := by
  simp [charReplace]

lemma escape_chain_char (c : Char) :
    charReplace (charReplace (charReplace (charReplace
        (charReplace [c] '&' "&amp;") '<' "&lt;") '>' "&gt;") '"' "&quot;") '\'' "&apos;"
      = (xmlEntity c).data := by
  by_cases h1 : c = '&'
  · subst h1; decide
  by_cases h2 : c = '<'
  · subst h2; decide
  by_cases h3 : c = '>'
  · subst h3; decide
  by_cases h4 : c = '"'
  · subst h4; decide
  by_cases h5 : c = '\''
  · subst h5; decide
  simp [charReplace, xmlEntity, h1, h2, h3, h4, h5, String.singleton]

lemma escape_xml_eq_charwise (s : String) :
    escape_xml s = ⟨s.data.flatMap (fun c => (xmlEntity c).data)⟩ := by
  rw [escape_xml]
  congr 1
  induction s.data with
  | nil => rfl
  | cons c l ih =>
    rw [show c :: l = [c] ++ l from rfl]
    simp only [charReplace_append]
    rw [escape_chain_char c, ih]
    simp

lemma xmlEntity_no_raw (a : Char) :
    ∀ c ∈ (xmlEntity a).data, c ∉ (['<', '>', '"', '\''] : List Char) := by
  unfold xmlEntity
  split_ifs with h1 h2 h3 h4 h5
  · decide
  · decide
  · decide
  · decide
  · decide
  · intro c hc hcontra
    have hca : c = a := by simpa [String.singleton] using hc
    subst hca
    have hd : c = '<' ∨ c = '>' ∨ c = '"' ∨ c = '\'' := by simpa using hcontra
    rcases hd with h | h | h | h
    · exact h2 h
    · exact h3 h
    · exact h4 h
    · exact h5 h

lemma msgStep_snd_eq (t : Trig) (o : RenderOptions) (ps : List ParticipantLayout)
    (bby : ℚ) (b : ContentBounds) (sb : SvgBuilder) (y : ℚ) (st : SequenceStatement) :
    (layoutMsgStep ps o.font_size (b, y) st).2 = (drawMsgStep t o ps bby (sb, y) st).2 := by
  rcases st with msg | _
  · rw [layoutMsgStep, drawMsgStep]
    cases hf : find_participant_center ps msg.from with
    | none => rfl
    | some fx =>
      cases ht : find_participant_center ps msg.to with
      | none => rfl
      | some tx =>
        by_cases hself : (msg.from == msg.to) = true
        · simp [hself]
        · simp only [Bool.not_eq_true] at hself
          simp [hself]
  · rfl

lemma foldl_snd_eq (t : Trig) (o : RenderOptions) (ps : List ParticipantLayout) (bby : ℚ) :
    ∀ (l : List SequenceStatement) (s : ContentBounds × ℚ) (s' : SvgBuilder × ℚ),
      s.2 = s'.2 →
      (l.foldl (layoutMsgStep ps o.font_size) s).2
        = (l.foldl (drawMsgStep t o ps bby) s').2 := by
  intro l
  induction l with
  | nil => intro s s' h; exact h
  | cons st rest ih =>
    intro s s' h
    obtain ⟨b, y⟩ := s
    obtain ⟨sb, y'⟩ := s'
    obtain rfl : y = y' := h
    exact ih _ _ (msgStep_snd_eq t o ps bby b sb y st)

lemma scanl_snd_eq (t : Trig) (o : RenderOptions) (ps : List ParticipantLayout) (bby : ℚ) :
    ∀ (l : List SequenceStatement) (s : ContentBounds × ℚ) (s' : SvgBuilder × ℚ),
      s.2 = s'.2 →
      (l.scanl (layoutMsgStep ps o.font_size) s).map Prod.snd
        = (l.scanl (drawMsgStep t o ps bby) s').map Prod.snd := by
  intro l
  induction l with
  | nil =>
    intro s s' h
    simp [List.scanl, h]
  | cons st rest ih =>
    intro s s' h
    obtain ⟨b, y⟩ := s
    obtain ⟨sb, y'⟩ := s'
    obtain rfl : y = y' := h
    simp only [List.scanl, List.map_cons]
    exact congrArg (List.cons y) (ih _ _ (msgStep_snd_eq t o ps bby b sb y st))

lemma layoutsAux_names (ws : List ℚ) (ls : List (List String)) (gs : List ℚ) :
    ∀ (qs : List Participant) (i : ℕ) (cx : ℚ),
      ∀ l ∈ layoutsAux ws ls gs qs i cx, ∃ q ∈ qs, l.name = q.actor := by
  intro qs
  induction qs with
  | nil => intro i cx l hl; simp [layoutsAux] at hl
  | cons q rest ih =>
    intro i cx l hl
    rw [layoutsAux] at hl
    rcases List.mem_cons.mp hl with h | h
    · exact ⟨q, List.mem_cons_self q rest, by rw [h]⟩
    · obtain ⟨q', hq', hn⟩ := ih (i + 1) _ l h
      exact ⟨q', List.mem_cons_of_mem q hq', hn⟩

lemma layout_center_none (d : SequenceDiagram) (fs : ℕ) (s : String)
    (h : ∀ q ∈ d.participants, q.actor ≠ s) :
    find_participant_center (calculate_layout d fs).participants s = none := by
  have hnames : ∀ l ∈ (calculate_layout d fs).participants, l.name ≠ s := by
    intro l hl heq
    obtain ⟨q, hq, hname⟩ := layoutsAux_names _ _ _ d.participants 0 _ l hl
    exact h q hq (hname ▸ heq)
  rw [find_participant_center, List.find?_eq_none.mpr]
  · rfl
  · intro l hl
    simpa using hnames l hl

lemma layouts_center_none (qs : List Participant) (ws : List ℚ) (ls : List (List String))
    (gs : List ℚ) (s : String) (h : ∀ q ∈ qs, q.actor ≠ s) :
    find_participant_center (calculate_participant_layouts qs ws ls gs) s = none := by
  have hnames : ∀ l ∈ calculate_participant_layouts qs ws ls gs, l.name ≠ s := by
    intro l hl heq
    obtain ⟨q, hq, hname⟩ := layoutsAux_names ws ls gs qs 0 _ l hl
    exact h q hq (hname ▸ heq)
  rw [find_participant_center, List.find?_eq_none.mpr]
  · rfl
  · intro l hl
    simpa using hnames l hl

lemma foldl_skip {α β : Type} (f : α → β → α) (x : β) (init : α) (pre suf : List β)
    (hid : ∀ a, f a x = a) :
    (pre ++ x :: suf).foldl f init = (pre ++ suf).foldl f init := by
  rw [List.foldl_append, List.foldl_append, List.foldl_cons, hid]

lemma gapStep_unknown (ps : List Participant) (fs : ℕ) (sp : List ℚ) (m : Message)
    (h : find_participant_index ps m.from = none
      ∨ find_participant_index ps m.to = none) :
    gapStep ps fs sp (.message m) = sp := by
  rw [gapStep]
  by_cases hself : (m.from == m.to) = true
  · simp [hself]
  · simp only [Bool.not_eq_true] at hself
    simp only [hself, Bool.false_eq_true, if_false]
    cases hf : find_participant_index ps m.from with
    | none => cases ht : find_participant_index ps m.to <;> rfl
    | some fi =>
      cases ht : find_participant_index ps m.to with
      | none => rfl
      | some ti =>
        rcases h with h | h
        · rw [hf] at h; exact absurd h (by simp)
        · rw [ht] at h; exact absurd h (by simp)

lemma layoutMsgStep_unknown (ps' : List ParticipantLayout) (fs : ℕ)
    (s : ContentBounds × ℚ) (m : Message)
    (h : find_participant_center ps' m.from = none
      ∨ find_participant_center ps' m.to = none) :
    layoutMsgStep ps' fs s (.message m) = s := by
  rw [layoutMsgStep]
  cases hf : find_participant_center ps' m.from with
  | none => cases ht : find_participant_center ps' m.to <;> rfl
  | some fx =>
    cases ht : find_participant_center ps' m.to with
    | none => rfl
    | some tx =>
      rcases h with h | h
      · rw [hf] at h; exact absurd h (by simp)
      · rw [ht] at h; exact absurd h (by simp)

lemma drawMsgStep_unknown (t : Trig) (o : RenderOptions) (ps' : List ParticipantLayout)
    (bby : ℚ) (s : SvgBuilder × ℚ) (m : Message)
    (h : find_participant_center ps' m.from = none
      ∨ find_participant_center ps' m.to = none) :
    drawMsgStep t o ps' bby s (.message m) = s := by
  rw [drawMsgStep]
  cases hf : find_participant_center ps' m.from with
  | none => cases ht : find_participant_center ps' m.to <;> rfl
  | some fx =>
    cases ht : find_participant_center ps' m.to with
    | none => rfl
    | some tx =>
      rcases h with h | h
      · rw [hf] at h; exact absurd h (by simp)
      · rw [ht] at h; exact absurd h (by simp)

/-! ## Claim theorems -/

/-- Claim C6: the arrow-kind to (line style, start marker, end marker)
mapping is exactly the fixed 8-entry table, for every arrow kind in the
closed set. -/
theorem arrow_style_table :
    arrow_type_to_styles ArrowType.SolidOpen
      = (LineStyle.Solid, EndStyle.None, EndStyle.None)
    ∧ arrow_type_to_styles ArrowType.SolidClosed
      = (LineStyle.Solid, EndStyle.None, EndStyle.Closed)
    ∧ arrow_type_to_styles ArrowType.Cross
      = (LineStyle.Solid, EndStyle.None, EndStyle.Cross)
    ∧ arrow_type_to_styles ArrowType.Point
      = (LineStyle.Solid, EndStyle.None, EndStyle.Open)
    ∧ arrow_type_to_styles ArrowType.BiDirectionalSolid
      = (LineStyle.Solid, EndStyle.Closed, EndStyle.Closed)
    ∧ arrow_type_to_styles ArrowType.DottedOpen
      = (LineStyle.Dotted, EndStyle.None, EndStyle.None)
    ∧ arrow_type_to_styles ArrowType.DottedClosed
      = (LineStyle.Dotted, EndStyle.None, EndStyle.Closed)
    ∧ arrow_type_to_styles ArrowType.BiDirectionalDotted
      = (LineStyle.Dotted, EndStyle.Closed, EndStyle.Closed) := by
  decide

/-- Claim C8: doubling the font size exactly doubles the measured text
width, for every text string and font size. -/
theorem text_width_linear_scaling (text : String) (s : ℕ) :
    text_width text (2 * s) = 2 * text_width text s := by
  unfold text_width
  push_cast
  ring

/-- Claim C3: the vertical message cursor of the draw pass agrees with
the dry layout pass step by step: for the layout's participants, each
statement advances both cursors identically (from the common start
`PADDING + participant_height + MESSAGE_SPACING`), the full sequences
of cursor values coincide, a message advances the cursor by
`MESSAGE_SPACING` (regular) or `MESSAGE_SPACING + SELF_MESSAGE_HEIGHT`
(self-message) only when both endpoints resolve, and the draw pass's
final cursor equals the layout's `bottom_box_y`. -/
theorem cursor_trace_equivalence (t : Trig) (d : SequenceDiagram) (o : RenderOptions) :
    (∀ (b : ContentBounds) (sb : SvgBuilder) (y : ℚ) (st : SequenceStatement),
      (layoutMsgStep (calculate_layout d o.font_size).participants o.font_size
          (b, y) st).2
        = (drawMsgStep t o (calculate_layout d o.font_size).participants
            (calculate_layout d o.font_size).bottom_box_y (sb, y) st).2)
    ∧ (∀ (b : ContentBounds) (sb : SvgBuilder),
      ((d.statements.scanl
          (layoutMsgStep (calculate_layout d o.font_size).participants o.font_size)
          (b, PADDING + (calculate_layout d o.font_size).participant_height
            + MESSAGE_SPACING)).map Prod.snd)
        = ((d.statements.scanl
            (drawMsgStep t o (calculate_layout d o.font_size).participants
              (calculate_layout d o.font_size).bottom_box_y)
            (sb, PADDING + (calculate_layout d o.font_size).participant_height
              + MESSAGE_SPACING)).map Prod.snd))
    ∧ (∀ (b : ContentBounds) (y : ℚ) (msg : Message),
      (layoutMsgStep (calculate_layout d o.font_size).participants o.font_size
          (b, y) (.message msg)).2
        = match find_participant_center (calculate_layout d o.font_size).participants
                  msg.from,
                find_participant_center (calculate_layout d o.font_size).participants
                  msg.to with
          | some _, some _ =>
            if msg.from = msg.to then y + (MESSAGE_SPACING + SELF_MESSAGE_HEIGHT)
            else y + MESSAGE_SPACING
          | _, _ => y)
    ∧ (∀ (sb : SvgBuilder),
      (d.statements.foldl
          (drawMsgStep t o (calculate_layout d o.font_size).participants
            (calculate_layout d o.font_size).bottom_box_y)
          (sb, PADDING + (calculate_layout d o.font_size).participant_height
            + MESSAGE_SPACING)).2
        = (calculate_layout d o.font_size).bottom_box_y) := by
  refine ⟨?_, ?_, ?_, ?_⟩
  · intro b sb y st
    exact msgStep_snd_eq t o _ _ b sb y st
  · intro b sb
    exact scanl_snd_eq t o _ _ d.statements _ _ rfl
  · intro b y msg
    rw [layoutMsgStep]
    cases hf : find_participant_center (calculate_layout d o.font_size).participants
        msg.from with
    | none =>
      cases ht : find_participant_center (calculate_layout d o.font_size).participants
        msg.to <;> rfl
    | some fx =>
      cases ht : find_participant_center (calculate_layout d o.font_size).participants
        msg.to with
      | none => rfl
      | some tx =>
        by_cases hself : msg.from = msg.to
        · simp [hself]
        · simp [hself]
  · intro sb
    exact (foldl_snd_eq t o (calculate_layout d o.font_size).participants
      (calculate_layout d o.font_size).bottom_box_y d.statements _ _ rfl).symm

/-- Claim C5: `escape_xml` replaces each of the five XML special
characters by its named entity character-wise (all other characters
passing through unmodified), no raw `<`, `>`, `"`, `'` remains in the
escaped text, and both text-emitting primitives (`draw_text` and
`draw_multiline_text`) embed exactly the character-wise escaped content
in their emitted fragments. -/
theorem text_escaping_complete (s : String) (x y : ℚ) (fill : String) (fs : ℕ)
    (lh : ℚ) (anchor : String) (lines : List String) (hlines : lines ≠ []) :
    escape_xml s = ⟨s.data.flatMap (fun c => (xmlEntity c).data)⟩
    ∧ (∀ c, c ∈ (['<', '>', '"', '\''] : List Char) → c ∉ (escape_xml s).data)
    ∧ (∀ c ∈ s.data, c ∉ (['&', '<', '>', '"', '\''] : List Char)
        → xmlEntity c = String.singleton c)
    ∧ draw_text x y s fill fs anchor
        = "<text x=\"" ++ fmtNum x ++ "\" y=\"" ++ fmtNum y ++ "\" fill=\"" ++ fill ++
          "\" font-size=\"" ++ toString fs ++
          "\" font-family=\"Arial, sans-serif\" text-anchor=\"" ++ anchor ++ "\">" ++
          (⟨s.data.flatMap (fun c => (xmlEntity c).data)⟩ : String) ++ "</text>"
    ∧ draw_multiline_text x y lines fill fs lh anchor
        = String.intercalate "\n" (lines.enum.map (fun pr =>
            "<text x=\"" ++ fmtNum x ++ "\" y=\"" ++
              fmtNum (y - ((lines.length - 1 : ℕ) : ℚ) * lh / 2 + (fs : ℚ) * (35 / 100)
                + (pr.1 : ℚ) * lh) ++ "\" fill=\"" ++ fill ++
              "\" font-size=\"" ++ toString fs ++
              "\" font-family=\"Arial, sans-serif\" text-anchor=\"" ++ anchor ++ "\">" ++
              (⟨pr.2.data.flatMap (fun c => (xmlEntity c).data)⟩ : String) ++
              "</text>")) := by
  refine ⟨escape_xml_eq_charwise s, ?_, ?_, ?_, ?_⟩
  · intro c hc hmem
    rw [escape_xml_eq_charwise] at hmem
    obtain ⟨a, _, hca⟩ := List.mem_flatMap.mp hmem
    exact xmlEntity_no_raw a c hca hc
  · intro c _ hc
    have h1 : c ≠ '&' := fun h => hc (by rw [h]; simp)
    have h2 : c ≠ '<' := fun h => hc (by rw [h]; simp)
    have h3 : c ≠ '>' := fun h => hc (by rw [h]; simp)
    have h4 : c ≠ '"' := fun h => hc (by rw [h]; simp)
    have h5 : c ≠ '\'' := fun h => hc (by rw [h]; simp)
    simp [xmlEntity, h1, h2, h3, h4, h5]
  · rw [draw_text, escape_xml_eq_charwise]
  · have hE : lines.isEmpty = false := by
      cases lines with
      | nil => exact absurd rfl hlines
      | cons a as => rfl
    rw [draw_multiline_text]
    simp only [hE, Bool.false_eq_true, if_false, escape_xml_eq_charwise]

/-- Witness for C5 at a concrete string containing specials. -/
theorem text_escaping_complete_witness :
    escape_xml "a&<b" = ⟨"a&<b".data.flatMap (fun c => (xmlEntity c).data)⟩
    ∧ ¬ '<' ∈ (escape_xml "a&<b").data := by
  have h := text_escaping_complete "a&<b" 0 0 "f" 14 18 "middle" ["x"] (by decide)
  exact ⟨h.1, h.2.1 '<' (by decide)⟩

/-- Claim C4: a message whose `from` or `to` matches no participant's
actor contributes nothing: gap spacings and the whole layout are
unchanged by removing it, `render` still succeeds, and the rendered
output equals the output for the diagram without that message. -/
theorem unknown_participant_message_skipped (t : Trig) (o : RenderOptions)
    (ps : List Participant) (pre suf : List SequenceStatement) (m : Message)
    (hunk : (∀ p ∈ ps, p.actor ≠ m.from) ∨ (∀ p ∈ ps, p.actor ≠ m.to)) :
    render t ⟨ps, pre ++ SequenceStatement.message m :: suf⟩ o
        = render t ⟨ps, pre ++ suf⟩ o
    ∧ (render t ⟨ps, pre ++ SequenceStatement.message m :: suf⟩ o).isOk = true
    ∧ (∀ (ws : List ℚ) (fs : ℕ),
        calculate_gap_spacings ps ws (pre ++ SequenceStatement.message m :: suf) fs
          = calculate_gap_spacings ps ws (pre ++ suf) fs)
    ∧ (∀ fs : ℕ, calculate_layout ⟨ps, pre ++ SequenceStatement.message m :: suf⟩ fs
        = calculate_layout ⟨ps, pre ++ suf⟩ fs) := by
  have hidx : find_participant_index ps m.from = none
      ∨ find_participant_index ps m.to = none := by
    rcases hunk with h | h
    · exact Or.inl (find_participant_index_none h)
    · exact Or.inr (find_participant_index_none h)
  have hgap : ∀ (ws : List ℚ) (fs : ℕ),
      calculate_gap_spacings ps ws (pre ++ SequenceStatement.message m :: suf) fs
        = calculate_gap_spacings ps ws (pre ++ suf) fs := by
    intro ws fs
    rw [calculate_gap_spacings, calculate_gap_spacings]
    by_cases h0 : ps.length - 1 = 0
    · simp [h0]
    · simp only [h0, if_false]
      exact foldl_skip _ _ _ _ _ (fun a => gapStep_unknown ps fs a m hidx)
  have hcen2 : ∀ (ws : List ℚ) (ls : List (List String)) (gs : List ℚ),
      find_participant_center (calculate_participant_layouts ps ws ls gs) m.from = none
        ∨ find_participant_center (calculate_participant_layouts ps ws ls gs) m.to
            = none := by
    intro ws ls gs
    rcases hunk with h | h
    · exact Or.inl (layouts_center_none ps ws ls gs m.from h)
    · exact Or.inr (layouts_center_none ps ws ls gs m.to h)
  have hlay : ∀ fs : ℕ, calculate_layout ⟨ps, pre ++ SequenceStatement.message m :: suf⟩ fs
      = calculate_layout ⟨ps, pre ++ suf⟩ fs := by
    intro fs
    simp only [calculate_layout]
    rw [hgap _ fs]
    rw [foldl_skip _ _ _ _ _ (fun a => layoutMsgStep_unknown _ fs a m (hcen2 _ _ _))]
  have hcen3 : find_participant_center
        (calculate_layout ⟨ps, pre ++ suf⟩ o.font_size).participants m.from = none
      ∨ find_participant_center
        (calculate_layout ⟨ps, pre ++ suf⟩ o.font_size).participants m.to = none := by
    rcases hunk with h | h
    · exact Or.inl (layout_center_none ⟨ps, pre ++ suf⟩ o.font_size m.from h)
    · exact Or.inr (layout_center_none ⟨ps, pre ++ suf⟩ o.font_size m.to h)
  have hrender : render t ⟨ps, pre ++ SequenceStatement.message m :: suf⟩ o
      = render t ⟨ps, pre ++ suf⟩ o := by
    simp only [render]
    rw [hlay o.font_size]
    simp only [draw_messages]
    rw [foldl_skip _ _ _ _ _ (fun a => drawMsgStep_unknown t o _ _ a m hcen3)]
  exact ⟨hrender, by rw [hrender]; rfl, hgap, hlay⟩

/-- Witness for C4: a one-participant diagram with a message from an
undeclared participant renders identically to the empty-statement
diagram. -/
theorem unknown_participant_message_skipped_witness :
    render ⟨fun _ => 0, fun _ => 0, fun _ _ => 0, 0⟩
        ⟨[⟨"Alice", none⟩],
          [] ++ SequenceStatement.message ⟨"Bob", "Alice", "hi", ArrowType.SolidOpen⟩ :: []⟩
        RenderOptions.default
      = render ⟨fun _ => 0, fun _ => 0, fun _ _ => 0, 0⟩
        ⟨[⟨"Alice", none⟩], [] ++ []⟩ RenderOptions.default :=
  (unknown_participant_message_skipped ⟨fun _ => 0, fun _ => 0, fun _ _ => 0, 0⟩
    RenderOptions.default [⟨"Alice", none⟩] [] []
    ⟨"Bob", "Alice", "hi", ArrowType.SolidOpen⟩ (Or.inl (by decide))).1

/-- Claim C9 (code bug): the configured `font_family` never reaches the
output — `render` is invariant under changing the options' font family,
and every `draw_text` fragment carries the hardcoded attribute
`font-family="Arial, sans-serif"`. -/
theorem font_family_ignored_bug :
    (∀ (t : Trig) (d : SequenceDiagram) (o : RenderOptions) (fam : String),
      render t d { o with font_family := fam } = render t d o)
    ∧ (∀ (x y : ℚ) (text fill : String) (fs : ℕ) (anchor : String),
      "font-family=\"Arial, sans-serif\"".data
        <:+: (draw_text x y text fill fs anchor).data) := by
  constructor
  · intro t d o fam
    rfl
  · intro x y text fill fs anchor
    have h1 : ("font-family=\"Arial, sans-serif\"").data
        <:+: ("\" font-family=\"Arial, sans-serif\" text-anchor=\"").data := by decide
    have h2 : ("\" font-family=\"Arial, sans-serif\" text-anchor=\"").data
        <:+: (draw_text x y text fill fs anchor).data := by
      refine ⟨("<text x=\"" ++ fmtNum x ++ "\" y=\"" ++ fmtNum y ++ "\" fill=\"" ++ fill
        ++ "\" font-size=\"" ++ toString fs).data,
        (anchor ++ "\">" ++ escape_xml text ++ "</text>").data, ?_⟩
      show _ = (draw_text x y text fill fs anchor).data
      simp [draw_text, List.append_assoc]
    exact h1.trans h2

/-- Claim C10: endpoint resolution matches only the actor identity,
never the alias: a participant with an alias renders its label lines
from the alias, yet a message addressed to that alias (matching no
actor) resolves to no participant and is skipped by the gap-spacing
step, the layout message step and the draw message step. -/
theorem endpoint_resolution_by_actor (d : SequenceDiagram) (p : Participant) (a : String)
    (m : Message) (fs : ℕ) (t : Trig) (o : RenderOptions) (sp : List ℚ)
    (b : ContentBounds) (sb : SvgBuilder) (y bby : ℚ)
    (hpmem : p ∈ d.participants)
    (hp : p.alias = some a)
    (hnone : ∀ q ∈ d.participants, q.actor ≠ a)
    (hm : m.from = a ∨ m.to = a) :
    get_participant_lines p = split_by_line_breaks a
    ∧ find_participant_index d.participants a = none
    ∧ gapStep d.participants fs sp (.message m) = sp
    ∧ layoutMsgStep (calculate_layout d fs).participants fs (b, y) (.message m) = (b, y)
    ∧ drawMsgStep t o (calculate_layout d fs).participants bby (sb, y) (.message m)
        = (sb, y) := by
  have hidx : find_participant_index d.participants m.from = none
      ∨ find_participant_index d.participants m.to = none := by
    rcases hm with h | h
    · exact Or.inl (find_participant_index_none (h ▸ hnone))
    · exact Or.inr (find_participant_index_none (h ▸ hnone))
  have hcen : find_participant_center (calculate_layout d fs).participants m.from = none
      ∨ find_participant_center (calculate_layout d fs).participants m.to = none := by
    rcases hm with h | h
    · exact Or.inl (layout_center_none d fs m.from (h ▸ hnone))
    · exact Or.inr (layout_center_none d fs m.to (h ▸ hnone))
  refine ⟨?_, find_participant_index_none hnone, gapStep_unknown _ _ _ _ hidx,
    layoutMsgStep_unknown _ _ _ _ hcen, drawMsgStep_unknown _ _ _ _ _ _ hcen⟩
  rw [get_participant_lines, hp]
  rfl

/-- Witness for C10 at a concrete aliased participant. -/
theorem endpoint_resolution_by_actor_witness :
    get_participant_lines ⟨"Alice", some "Ally"⟩ = split_by_line_breaks "Ally"
    ∧ gapStep [⟨"Alice", some "Ally"⟩] 14 []
        (.message ⟨"Ally", "Alice", "hi", ArrowType.SolidOpen⟩) = [] := by
  have h := endpoint_resolution_by_actor ⟨[⟨"Alice", some "Ally"⟩], []⟩
    ⟨"Alice", some "Ally"⟩ "Ally" ⟨"Ally", "Alice", "hi", ArrowType.SolidOpen⟩ 14
    ⟨fun _ => 0, fun _ => 0, fun _ _ => 0, 0⟩ RenderOptions.default []
    ContentBounds.new (SvgBuilder.new 0 0 ThemeColors.light false) 0 0
    (by decide) rfl (by decide) (Or.inl rfl)
  exact ⟨h.1, h.2.2.1⟩

/-- Claim C1: with at least two participants, every gap ends at least at
`width(i)/2 + MIN_PARTICIPANT_SPACING + width(i+1)/2` after the
statement loop of `calculate_gap_spacings`, and each single statement
step either leaves every gap unchanged or adds one positive amount to
exactly the contiguous range of gaps the message spans. -/
theorem gap_spacings_respect_minimum
    (ps : List Participant) (ws : List ℚ) (stmts : List SequenceStatement) (fs : ℕ)
    (hlen : ws.length = ps.length) (h2 : 2 ≤ ps.length) :
    (∀ i, i < ps.length - 1 →
      ws.getD i 0 / 2 + MIN_PARTICIPANT_SPACING + ws.getD (i + 1) 0 / 2
        ≤ (calculate_gap_spacings ps ws stmts fs).getD i 0)
    ∧ (∀ (sp : List ℚ) (st : SequenceStatement),
        (∀ i, sp.getD i 0 ≤ (gapStep ps fs sp st).getD i 0)
        ∧ (gapStep ps fs sp st = sp ∨
            ∃ lo hi d, lo < hi ∧ 0 < d ∧
              gapStep ps fs sp st
                = sp.mapIdx (fun i v => if lo ≤ i ∧ i < hi then v + d else v))) := by
  constructor
  · intro i hi
    have h0 : ¬ (ps.length - 1 = 0) := by omega
    rw [calculate_gap_spacings]
    simp only [h0, if_false]
    refine foldl_invariant
      (fun sp => ∀ j, j < ps.length - 1 →
        ws.getD j 0 / 2 + MIN_PARTICIPANT_SPACING + ws.getD (j + 1) 0 / 2 ≤ sp.getD j 0)
      (gapStep ps fs) stmts _ ?_ ?_ i hi
    · intro j hj
      rw [getD_range_map _ _ _ hj]
    · intro acc st hacc j hj
      exact le_trans (hacc j hj) (gapStep_mono ps fs acc st j)
  · intro sp st
    exact ⟨gapStep_mono ps fs sp st, gapStep_shape ps fs sp st⟩

/-- Witness for C1 at a concrete two-participant diagram. -/
theorem gap_spacings_respect_minimum_witness :
    ([(80 : ℚ), 80].getD 0 0 / 2 + MIN_PARTICIPANT_SPACING + [(80 : ℚ), 80].getD 1 0 / 2
      ≤ (calculate_gap_spacings [⟨"Alice", none⟩, ⟨"Bob", none⟩] [80, 80]
          [SequenceStatement.message ⟨"Alice", "Bob", "Hello Bob!", ArrowType.SolidClosed⟩]
          14).getD 0 0) :=
  (gap_spacings_respect_minimum [⟨"Alice", none⟩, ⟨"Bob", none⟩] [80, 80]
    [SequenceStatement.message ⟨"Alice", "Bob", "Hello Bob!", ArrowType.SolidClosed⟩]
    14 (by decide) (by decide)).1 0 (by decide)

/-- Claim C2: every participant layout produced by `calculate_layout`
carries the same box width, equal to the spec formula
`max(MIN_PARTICIPANT_WIDTH, max over participants of widest line width
+ PARTICIPANT_PADDING)`, and the layout's `participant_height` equals
`max(MIN_PARTICIPANT_HEIGHT, max over participants of lineCount *
LINE_HEIGHT + PARTICIPANT_VERTICAL_PADDING)`. -/
theorem uniform_box_dimensions (d : SequenceDiagram) (fs : ℕ) :
    (∀ p ∈ (calculate_layout d fs).participants, p.width = specUniformWidth d fs)
    ∧ (calculate_layout d fs).participant_height = specUniformHeight d := by
  have hW :
      ((d.participants.map get_participant_lines).map
          (fun lines => calculate_participant_width lines fs)).foldl max
          MIN_PARTICIPANT_WIDTH
        = specUniformWidth d fs := by
    rw [List.map_map]
    have hfun : ((fun lines => calculate_participant_width lines fs) ∘ get_participant_lines)
        = (fun x => max x MIN_PARTICIPANT_WIDTH) ∘ (fun p : Participant =>
            ((get_participant_lines p).map (fun line => text_width line fs)).foldl max 0
              + PARTICIPANT_PADDING) := rfl
    rw [hfun, ← List.map_map]
    rw [foldl_max_map_max _ _ _ (le_refl MIN_PARTICIPANT_WIDTH)]
    rw [foldl_max_split _ _ 0 (by norm_num [MIN_PARTICIPANT_WIDTH])]
    rfl
  have hH :
      ((d.participants.map get_participant_lines).map
          (fun lines => calculate_participant_height lines.length)).foldl max
          MIN_PARTICIPANT_HEIGHT
        = specUniformHeight d := by
    rw [List.map_map]
    have hfun : ((fun lines : List String => calculate_participant_height lines.length) ∘
          get_participant_lines)
        = (fun x => max x MIN_PARTICIPANT_HEIGHT) ∘ (fun p : Participant =>
            ((get_participant_lines p).length : ℚ) * LINE_HEIGHT
              + PARTICIPANT_VERTICAL_PADDING) := by
      funext p
      exact height_elem_eq _
    rw [hfun, ← List.map_map]
    rw [foldl_max_map_max _ _ _ (le_refl MIN_PARTICIPANT_HEIGHT)]
    rw [foldl_max_split _ _ 0 (by norm_num [MIN_PARTICIPANT_HEIGHT])]
    rfl
  constructor
  · intro p hp
    rw [← hW]
    exact layoutsAux_width d.participants.length _ _ _ d.participants 0 _ (by omega) p hp
  · rw [← hH]
    rfl

/-- Witness for C2 at a concrete two-participant diagram. -/
theorem uniform_box_dimensions_witness :
    ((calculate_layout ⟨[⟨"Alice", none⟩, ⟨"Bob", none⟩], []⟩ 14).participants.getD 0
        ⟨"", [], 0, 0⟩).width
      = specUniformWidth ⟨[⟨"Alice", none⟩, ⟨"Bob", none⟩], []⟩ 14 :=
  (uniform_box_dimensions ⟨[⟨"Alice", none⟩, ⟨"Bob", none⟩], []⟩ 14).1 _
    (getD_zero_mem _ (by decide))

/-- Claim C7: gap spacings are unchanged by self-messages; inserting,
removing or replacing a statement whose `from` equals its `to` leaves
every inter-participant gap exactly the same. -/
theorem self_messages_preserve_gaps (ps : List Participant) (ws : List ℚ)
    (pre suf : List SequenceStatement) (m m' : Message) (fs : ℕ)
    (hm : m.from = m.to) (hm' : m'.from = m'.to) :
    calculate_gap_spacings ps ws (pre ++ SequenceStatement.message m :: suf) fs
      = calculate_gap_spacings ps ws (pre ++ suf) fs
    ∧ calculate_gap_spacings ps ws (pre ++ SequenceStatement.message m :: suf) fs
      = calculate_gap_spacings ps ws (pre ++ SequenceStatement.message m' :: suf) fs := by
  unfold calculate_gap_spacings
  by_cases h0 : ps.length - 1 = 0
  · simp [h0]
  · simp [h0, List.foldl_append, gapStep_self hm, gapStep_self hm']

/-- Witness for C7 at a concrete two-participant diagram with one
self-message. -/
theorem self_messages_preserve_gaps_witness :
    calculate_gap_spacings [⟨"Alice", none⟩, ⟨"Bob", none⟩] [80, 80]
        ([] ++ SequenceStatement.message ⟨"Alice", "Alice", "think", ArrowType.SolidOpen⟩ :: [])
        14
      = calculate_gap_spacings [⟨"Alice", none⟩, ⟨"Bob", none⟩] [80, 80] ([] ++ []) 14 :=
  (self_messages_preserve_gaps [⟨"Alice", none⟩, ⟨"Bob", none⟩] [80, 80] [] []
    ⟨"Alice", "Alice", "think", ArrowType.SolidOpen⟩
    ⟨"Alice", "Alice", "think", ArrowType.SolidOpen⟩ 14 rfl rfl).1

end MSV
